import Mathlib

/-!
Verification development for the "context" memory/retrieval service.

The service stores conversational records (messages, insights, knowledge
entries, task outcomes, repo events, weekly summaries), each with an
optional embedding vector, and answers similarity queries ordered by
pgvector L2 distance.  We give a shallow embedding of the relevant
Python routines over explicit list-based tables, with rational-valued
vectors standing for the float vectors of the source, and prove the
specification's claims about them.

Conventions:
* a SQL statement of the shape
    SELECT ... WHERE embedding IS NOT NULL AND keep
    ORDER BY embedding <-> q LIMIT k
  is modelled by filtering, sorting by squared L2 distance (the same
  order as L2 distance, since square root is monotone) and taking k;
* fallible collaborator calls (OpenAI embeddings / chat completions)
  are modelled as functions returning Except, an error value standing
  for a raised exception;
* Python truthiness of an optional string (None and "" falsy) is made
  explicit wherever the source branches on it.
-/

/-- Squared L2 distance between two rational vectors; mirrors the order
produced by the pgvector operator, componentwise over zipped entries. -/
def dist2 (a b : List ℚ) : ℚ :=
  (List.zipWith (fun x y => (x - y) * (x - y)) a b).sum

/-- Squared L2 norm of a rational vector. -/
def normSq (v : List ℚ) : ℚ :=
  (v.map (fun x => x * x)).sum

/-- L2 distance (with the square root taken in ℝ), as computed by the
pgvector operator in the source's ORDER BY clauses. -/
noncomputable def l2dist (a b : List ℚ) : ℝ :=
  Real.sqrt ((dist2 a b : ℚ) : ℝ)

/-- Boolean comparison used to sort candidate rows: ascending squared
distance of each row's embedding to the query vector. -/
def distLe (emb : α → Option (List ℚ)) (q : List ℚ) (a b : α) : Bool :=
  decide (dist2 q ((emb a).getD []) ≤ dist2 q ((emb b).getD []))

/-- Insertion of an element into a list sorted by the boolean comparison. -/
def insertLe (le : α → α → Bool) (x : α) : List α → List α
  | [] => [x]
  | y :: ys => if le x y then x :: y :: ys else y :: insertLe le x ys

/-- Stable sort by a boolean comparison (insertion sort), standing for the
ORDER BY clause of the store. -/
def orderByAsc (le : α → α → Bool) : List α → List α
  | [] => []
  | x :: xs => insertLe le x (orderByAsc le xs)

theorem mem_insertLe (le : α → α → Bool) (x a : α) :
    ∀ l, a ∈ insertLe le x l ↔ a = x ∨ a ∈ l := by
  intro l
  induction l with
  | nil => simp [insertLe]
  | cons y ys ih =>
    simp only [insertLe]
    split
    · simp [List.mem_cons]
    · simp only [List.mem_cons, ih]
      tauto

theorem mem_orderByAsc (le : α → α → Bool) (a : α) :
    ∀ l, a ∈ orderByAsc le l ↔ a ∈ l := by
  intro l
  induction l with
  | nil => simp [orderByAsc]
  | cons x xs ih =>
    simp only [orderByAsc, mem_insertLe, List.mem_cons, ih]

theorem insertLe_pairwise (le : α → α → Bool)
    (htrans : ∀ a b c, le a b → le b c → le a c)
    (htotal : ∀ a b, le a b || le b a) (x : α) :
    ∀ {l}, l.Pairwise (fun a b => le a b = true) →
      (insertLe le x l).Pairwise (fun a b => le a b = true) := by
  intro l
  induction l with
  | nil => intro _; simp [insertLe]
  | cons y ys ih =>
    intro hp
    rw [List.pairwise_cons] at hp
    obtain ⟨hy, hys⟩ := hp
    simp only [insertLe]
    split
    · rename_i hxy
      rw [List.pairwise_cons]
      refine ⟨?_, List.pairwise_cons.mpr ⟨hy, hys⟩⟩
      intro z hz
      rcases List.mem_cons.mp hz with rfl | hz'
      · exact hxy
      · exact htrans x y z hxy (hy z hz')
    · rename_i hxy
      rw [List.pairwise_cons]
      constructor
      · intro z hz
        rcases (mem_insertLe le x z ys).mp hz with heq | hz'
        · have htot := htotal x y
          rw [Bool.or_eq_true] at htot
          rcases htot with h | h
          · exact absurd h hxy
          · rw [heq]
            exact h
        · exact hy z hz'
      · exact ih hys

theorem orderByAsc_pairwise (le : α → α → Bool)
    (htrans : ∀ a b c, le a b → le b c → le a c)
    (htotal : ∀ a b, le a b || le b a) :
    ∀ l, (orderByAsc le l).Pairwise (fun a b => le a b = true) := by
  intro l
  induction l with
  | nil => simp [orderByAsc]
  | cons x xs ih =>
    exact insertLe_pairwise le htrans htotal x ih

/-- Model of one per-type vector search statement:
SELECT rows WHERE embedding IS NOT NULL AND keep row
ORDER BY embedding <-> q ASC LIMIT k.
Every vector-search endpoint of the service instantiates this with its
own embedding column accessor and scope predicate. -/
def vsearch (emb : α → Option (List ℚ)) (keep : α → Bool) (q : List ℚ)
    (k : Nat) (rows : List α) : List α :=
  (orderByAsc (distLe emb q) (rows.filter (fun r => (emb r).isSome && keep r))).take k

theorem dist2_nonneg (a b : List ℚ) : 0 ≤ dist2 a b := by
  unfold dist2
  induction a generalizing b with
  | nil => simp
  | cons x xs ih =>
    cases b with
    | nil => simp
    | cons y ys =>
      simp only [List.zipWith, List.sum_cons]
      have h1 : 0 ≤ (x - y) * (x - y) := mul_self_nonneg _
      have h2 := ih ys
      linarith

theorem normSq_nonneg (v : List ℚ) : 0 ≤ normSq v := by
  unfold normSq
  induction v with
  | nil => simp
  | cons x xs ih =>
    simp only [List.map, List.sum_cons]
    have := mul_self_nonneg x
    linarith

theorem distLe_trans (emb : α → Option (List ℚ)) (q : List ℚ) :
    ∀ a b c, distLe emb q a b → distLe emb q b c → distLe emb q a c := by
  intro a b c hab hbc
  simp only [distLe, decide_eq_true_eq] at *
  exact le_trans hab hbc

theorem distLe_total (emb : α → Option (List ℚ)) (q : List ℚ) :
    ∀ a b, distLe emb q a b || distLe emb q b a := by
  intro a b
  simp only [distLe, Bool.or_eq_true, decide_eq_true_eq]
  exact le_total _ _

theorem vsearch_length_le (emb : α → Option (List ℚ)) (keep : α → Bool)
    (q : List ℚ) (k : Nat) (rows : List α) :
    (vsearch emb keep q k rows).length ≤ k := by
  unfold vsearch
  exact List.length_take_le _ _

theorem vsearch_mem_keep (emb : α → Option (List ℚ)) (keep : α → Bool)
    (q : List ℚ) (k : Nat) (rows : List α) :
    ∀ r ∈ vsearch emb keep q k rows, (emb r).isSome ∧ keep r := by
  intro r hr
  unfold vsearch at hr
  have hr' : r ∈ orderByAsc (distLe emb q)
      (rows.filter (fun r => (emb r).isSome && keep r)) :=
    List.take_subset _ _ hr
  rw [mem_orderByAsc] at hr'
  have := List.of_mem_filter hr'
  simpa [Bool.and_eq_true] using this

theorem vsearch_mem_rows (emb : α → Option (List ℚ)) (keep : α → Bool)
    (q : List ℚ) (k : Nat) (rows : List α) :
    ∀ r ∈ vsearch emb keep q k rows, r ∈ rows := by
  intro r hr
  unfold vsearch at hr
  have hr' : r ∈ orderByAsc (distLe emb q)
      (rows.filter (fun r => (emb r).isSome && keep r)) :=
    List.take_subset _ _ hr
  rw [mem_orderByAsc] at hr'
  exact List.mem_of_mem_filter hr'

theorem vsearch_sorted (emb : α → Option (List ℚ)) (keep : α → Bool)
    (q : List ℚ) (k : Nat) (rows : List α) :
    (vsearch emb keep q k rows).Pairwise
      (fun a b => dist2 q ((emb a).getD []) ≤ dist2 q ((emb b).getD [])) := by
  have hs := orderByAsc_pairwise (distLe emb q)
    (distLe_trans emb q) (distLe_total emb q)
    (rows.filter (fun r => (emb r).isSome && keep r))
  have ht : (vsearch emb keep q k rows).Pairwise (fun a b => distLe emb q a b = true) := by
    unfold vsearch
    exact hs.sublist (List.take_sublist _ _)
  exact ht.imp (by
    intro a b h
    simpa [distLe, decide_eq_true_eq] using h)

theorem vsearch_sorted_l2 (emb : α → Option (List ℚ)) (keep : α → Bool)
    (q : List ℚ) (k : Nat) (rows : List α) :
    (vsearch emb keep q k rows).Pairwise
      (fun a b => l2dist q ((emb a).getD []) ≤ l2dist q ((emb b).getD [])) := by
  refine (vsearch_sorted emb keep q k rows).imp ?_
  intro a b h
  unfold l2dist
  exact Real.sqrt_le_sqrt (by exact_mod_cast h)

/-! Data model: one structure per table (models/chat.py, models/insight.py,
models/task_outcome.py, models/repo_event.py), with ids and timestamps as
naturals and vectors as rational lists.  Fields not touched by any verified
routine keep their source defaults. -/

structure Conversation where
  id : Nat
  project : Option String := none
  title : Option String := none
  summary : Option String := none
  updated_at : Nat := 0
deriving Repr, DecidableEq

structure Message where
  id : Nat := 0
  conversation_id : Nat
  role : String
  content : String
  embedding : Option (List ℚ) := none
  token_count : Option Nat := none
  created_at : Nat := 0
deriving Repr, DecidableEq

structure KnowledgeEntry where
  id : Nat := 0
  category : String
  subject : String
  content : String
  source_conversation_id : Option Nat := none
  confidence : ℚ := 1
  embedding : Option (List ℚ) := none
  updated_at : Nat := 0
deriving Repr, DecidableEq

structure Insight where
  id : Nat := 0
  type : String
  project : Option String := none
  title : String
  content : String
  tags : Option String := none
  source_conversation_id : Option Nat := none
  source_task_id : Option Nat := none
  embedding : Option (List ℚ) := none
  created_at : Nat := 0
deriving Repr, DecidableEq

structure TaskOutcome where
  id : Nat := 0
  project : Option String := none
  result : String
  task_description : String
  cause : Option String := none
  fix : Option String := none
  recommendation : Option String := none
  linked_commit : Option String := none
  conversation_id : Option Nat := none
  tags : Option String := none
  embedding : Option (List ℚ) := none
  created_at : Nat := 0
deriving Repr, DecidableEq

structure WeeklySummary where
  id : Nat := 0
  week_start : Nat := 0
  week_end : Nat := 0
  summary : String
  projects_active : Option String := none
  ideas_mentioned : Option String := none
  embedding : Option (List ℚ) := none
deriving Repr, DecidableEq

structure RepoEvent where
  id : Nat := 0
  event_type : String
  repo : String
  project : Option String := none
  ref : Option String := none
  author : Option String := none
  title : String
  body : Option String := none
  diff_summary : Option String := none
  url : Option String := none
  event_at : String := ""
  embedding : Option (List ℚ) := none
deriving Repr, DecidableEq

/-- Durable store: one list per table. -/
structure DB where
  conversations : List Conversation := []
  messages : List Message := []
  insights : List Insight := []
  knowledge : List KnowledgeEntry := []
  task_outcomes : List TaskOutcome := []
  summaries : List WeeklySummary := []
  repo_events : List RepoEvent := []
deriving Repr, DecidableEq

/-- Python truthiness of an optional string: None and "" are falsy.
The source guards several filters with a bare `if value:`. -/
def pyTruthy : Option String → Bool
  | none => false
  | some s => !(s == "")

/-- Scope clause `project == P OR project IS NULL` (include flag true) or
`project == P` (include flag false), as built in the source's WHERE clauses. -/
def scopeMatch (rowProject : Option String) (p : String) (incl : Bool) : Bool :=
  if incl then rowProject == some p || rowProject == none
  else rowProject == some p

/-- Inner join of messages with their conversation, keeping message rows
whose conversation satisfies the scope clause; performed by the source only
when the request's project is not None. -/
def joinedMessages (msgs : List Message) (convs : List Conversation)
    (p : String) (incl : Bool) : List Message :=
  (msgs.map (fun m =>
    (convs.filter (fun c => c.id == m.conversation_id && scopeMatch c.project p incl)).map
      (fun _ => m))).flatten

/-- Project filter applied to insights in retrieve and in the standalone
insight search: skipped entirely when the request project is falsy. -/
def insightScope (proj : Option String) (incl : Bool) (i : Insight) : Bool :=
  if pyTruthy proj then
    (if incl then i.project == proj || i.project == none else i.project == proj)
  else true

/-- Type filter of the standalone insight search (`if req.type:`). -/
def insightTypeFilter (ty : Option String) (i : Insight) : Bool :=
  if pyTruthy ty then i.type == ty.getD "" else true

/-- Project filter applied to task outcomes in retrieve. -/
def outcomeScope (proj : Option String) (incl : Bool) (t : TaskOutcome) : Bool :=
  if pyTruthy proj then
    (if incl then t.project == proj || t.project == none else t.project == proj)
  else true

/-- Project filter of the standalone task-outcome search, which has no
include-general option: plain equality when the request project is truthy. -/
def outcomeProjectFilter (proj : Option String) (t : TaskOutcome) : Bool :=
  if pyTruthy proj then t.project == proj else true

/-- Result filter of the standalone task-outcome search (`if req.result:`). -/
def outcomeResultFilter (res : Option String) (t : TaskOutcome) : Bool :=
  if pyTruthy res then t.result == res.getD "" else true

/-- One call to the embedding provider: maps each text to its vector and
increments the running count of provider invocations. -/
def callEmbed (emb : String → List ℚ) (texts : List String) (calls : Nat) :
    List (List ℚ) × Nat :=
  (texts.map emb, calls + 1)

/-- Recency ordering (newest first) used by the no-query branches of the
standalone search endpoints. -/
def recencyDesc (key : α → Nat) (a b : α) : Bool :=
  decide (key b ≤ key a)

/-! Requests mirroring services/schemas.py and services/retrieve.py. -/

structure RetrieveRequest where
  query : String
  project : Option String := none
  include_general : Bool := true
  k_messages : Nat := 5
  k_insights : Nat := 3
  k_knowledge : Nat := 3
  k_outcomes : Nat := 3
  k_summaries : Nat := 2
deriving Repr, DecidableEq

structure RetrieveResponse where
  messages : List Message
  insights : List Insight
  knowledge : List KnowledgeEntry
  task_outcomes : List TaskOutcome
  summaries : List WeeklySummary
deriving Repr, DecidableEq

structure SearchRequest where
  query : String
  project : Option String := none
  include_general : Bool := true
  k : Nat := 8
deriving Repr, DecidableEq

structure InsightSearch where
  query : Option String := none
  project : Option String := none
  type : Option String := none
  include_global : Bool := true
  k : Nat := 10
deriving Repr, DecidableEq

structure TaskOutcomeQuery where
  query : Option String := none
  project : Option String := none
  result : Option String := none
  k : Nat := 20
deriving Repr, DecidableEq

structure KnowledgeSearch where
  query : Option String := none
  category : Option String := none
  k : Nat := 10
deriving Repr, DecidableEq

structure WeeklySummaryQuery where
  query : Option String := none
  k : Nat := 10
deriving Repr, DecidableEq

/-- Candidate messages of the message search: the messages table itself when
the request carries no project, otherwise the join with conversations
restricted by the scope clause (services/retrieve.py and services/search.py
branch on `project is not None`, so an empty-string project does join). -/
def messageCandidates (db : DB) (project : Option String) (incl : Bool) :
    List Message :=
  match project with
  | none => db.messages
  | some p => joinedMessages db.messages db.conversations p incl

/-- Unified retrieval (services/retrieve.py): embed the query once, then run
the five per-type nearest-neighbor searches with that vector and assemble one
list per record type.  The second component counts embedding-provider calls. -/
def retrieve (emb : String → List ℚ) (db : DB) (req : RetrieveRequest) :
    RetrieveResponse × Nat :=
  let r := callEmbed emb [req.query] 0
  let q_emb := r.1.headD []
  let messages := vsearch Message.embedding (fun _ => true) q_emb req.k_messages
    (messageCandidates db req.project req.include_general)
  let insights := vsearch Insight.embedding
    (insightScope req.project req.include_general) q_emb req.k_insights db.insights
  let knowledge := vsearch KnowledgeEntry.embedding (fun _ => true) q_emb
    req.k_knowledge db.knowledge
  let task_outcomes := vsearch TaskOutcome.embedding
    (outcomeScope req.project req.include_general) q_emb req.k_outcomes db.task_outcomes
  let summaries := vsearch WeeklySummary.embedding (fun _ => true) q_emb
    req.k_summaries db.summaries
  (⟨messages, insights, knowledge, task_outcomes, summaries⟩, r.2)

/-- Display score attached to each returned message row:
1 / (1 + distance), computed on the raw L2 distance. -/
noncomputable def msgScore (q_emb : List ℚ) (m : Message) : ℝ :=
  1 / (1 + l2dist (m.embedding.getD []) q_emb)

/-- Standalone message search endpoint (services/search.py). -/
def search_messages (emb : String → List ℚ) (db : DB) (payload : SearchRequest) :
    List Message :=
  let q_emb := (callEmbed emb [payload.query] 0).1.headD []
  vsearch Message.embedding (fun _ => true) q_emb payload.k
    (messageCandidates db payload.project payload.include_general)

/-- Standalone insight search endpoint (services/insights.py): vector search
when the query is truthy, otherwise a recency-ordered listing, both under the
same project/type filters. -/
def search_insights (emb : String → List ℚ) (db : DB) (req : InsightSearch) :
    List Insight :=
  let keep := fun i => insightScope req.project req.include_global i &&
    insightTypeFilter req.type i
  if pyTruthy req.query then
    let q_emb := (callEmbed emb [req.query.getD ""] 0).1.headD []
    vsearch Insight.embedding keep q_emb req.k db.insights
  else
    (orderByAsc (recencyDesc Insight.created_at) (db.insights.filter keep)).take req.k

/-- Standalone task-outcome search endpoint (services/task_outcomes.py). -/
def search_task_outcomes (emb : String → List ℚ) (db : DB) (req : TaskOutcomeQuery) :
    List TaskOutcome :=
  let keep := fun t => outcomeProjectFilter req.project t &&
    outcomeResultFilter req.result t
  if pyTruthy req.query then
    let q_emb := (callEmbed emb [req.query.getD ""] 0).1.headD []
    vsearch TaskOutcome.embedding keep q_emb req.k db.task_outcomes
  else
    (orderByAsc (recencyDesc TaskOutcome.created_at) (db.task_outcomes.filter keep)).take req.k

/-- Category filter of the standalone knowledge search (`if req.category:`). -/
def knowledgeCategoryFilter (cat : Option String) (k : KnowledgeEntry) : Bool :=
  if pyTruthy cat then k.category == cat.getD "" else true

/-- Standalone knowledge search endpoint (services/knowledge.py). -/
def search_knowledge (emb : String → List ℚ) (db : DB) (req : KnowledgeSearch) :
    List KnowledgeEntry :=
  let keep := knowledgeCategoryFilter req.category
  if pyTruthy req.query then
    let q_emb := (callEmbed emb [req.query.getD ""] 0).1.headD []
    vsearch KnowledgeEntry.embedding keep q_emb req.k db.knowledge
  else
    (orderByAsc (recencyDesc KnowledgeEntry.updated_at) (db.knowledge.filter keep)).take req.k

/-- Standalone weekly-summary search endpoint (services/summaries.py). -/
def search_weekly_summaries (emb : String → List ℚ) (db : DB)
    (req : WeeklySummaryQuery) : List WeeklySummary :=
  if pyTruthy req.query then
    let q_emb := (callEmbed emb [req.query.getD ""] 0).1.headD []
    vsearch WeeklySummary.embedding (fun _ => true) q_emb req.k db.summaries
  else
    (orderByAsc (recencyDesc WeeklySummary.week_start) db.summaries).take req.k

theorem joinedMessages_mem {msgs : List Message} {convs : List Conversation}
    {p : String} {incl : Bool} {m : Message}
    (h : m ∈ joinedMessages msgs convs p incl) :
    ∃ c ∈ convs, c.id = m.conversation_id ∧ scopeMatch c.project p incl = true := by
  unfold joinedMessages at h
  rw [List.mem_flatten] at h
  obtain ⟨L, hL, hm⟩ := h
  rw [List.mem_map] at hL
  obtain ⟨m', _, rfl⟩ := hL
  rw [List.mem_map] at hm
  obtain ⟨c, hc, rfl⟩ := hm
  have hc' := List.of_mem_filter hc
  rw [Bool.and_eq_true] at hc'
  refine ⟨c, List.mem_of_mem_filter hc, ?_, hc'.2⟩
  exact (beq_iff_eq.mp hc'.1)

theorem scopeMatch_incl {op : Option String} {p : String}
    (h : scopeMatch op p true = true) : op = some p ∨ op = none := by
  simpa [scopeMatch, Bool.or_eq_true, beq_iff_eq] using h

theorem scopeMatch_excl {op : Option String} {p : String}
    (h : scopeMatch op p false = true) : op = some p := by
  simpa [scopeMatch, beq_iff_eq] using h

theorem pyTruthy_of_ne {p : String} (hp : p ≠ "") : pyTruthy (some p) = true := by
  simp [pyTruthy, hp]

theorem insightScope_incl {p : String} (hp : p ≠ "") {i : Insight}
    (h : insightScope (some p) true i = true) :
    i.project = some p ∨ i.project = none := by
  rw [insightScope, pyTruthy_of_ne hp] at h
  simpa [Bool.or_eq_true, beq_iff_eq] using h

theorem insightScope_excl {p : String} (hp : p ≠ "") {i : Insight}
    (h : insightScope (some p) false i = true) : i.project = some p := by
  rw [insightScope, pyTruthy_of_ne hp] at h
  simpa [beq_iff_eq] using h

theorem outcomeScope_incl {p : String} (hp : p ≠ "") {t : TaskOutcome}
    (h : outcomeScope (some p) true t = true) :
    t.project = some p ∨ t.project = none := by
  rw [outcomeScope, pyTruthy_of_ne hp] at h
  simpa [Bool.or_eq_true, beq_iff_eq] using h

theorem outcomeScope_excl {p : String} (hp : p ≠ "") {t : TaskOutcome}
    (h : outcomeScope (some p) false t = true) : t.project = some p := by
  rw [outcomeScope, pyTruthy_of_ne hp] at h
  simpa [beq_iff_eq] using h

theorem outcomeProjectFilter_true {p : String} (hp : p ≠ "") {t : TaskOutcome}
    (h : outcomeProjectFilter (some p) t = true) : t.project = some p := by
  rw [outcomeProjectFilter, pyTruthy_of_ne hp] at h
  simpa [beq_iff_eq] using h

/-- C1: In unified retrieval the query embedding is computed exactly once —
the provider-call counter ends at 1 — and each of the five response lists is
exactly its own type's nearest-neighbor search at that same vector
(emb req.query), with no merging, re-ranking or score normalization across
types; the message list moreover coincides with the standalone message-search
endpoint at the same query, scope and budget. -/
theorem retrieve_embeds_once_and_keeps_lists_per_type
    (emb : String → List ℚ) (db : DB) (req : RetrieveRequest) :
    (retrieve emb db req).2 = 1 ∧
    (retrieve emb db req).1.messages =
      vsearch Message.embedding (fun _ => true) (emb req.query) req.k_messages
        (messageCandidates db req.project req.include_general) ∧
    (retrieve emb db req).1.messages =
      search_messages emb db ⟨req.query, req.project, req.include_general, req.k_messages⟩ ∧
    (retrieve emb db req).1.insights =
      vsearch Insight.embedding (insightScope req.project req.include_general)
        (emb req.query) req.k_insights db.insights ∧
    (retrieve emb db req).1.knowledge =
      vsearch KnowledgeEntry.embedding (fun _ => true) (emb req.query)
        req.k_knowledge db.knowledge ∧
    (retrieve emb db req).1.task_outcomes =
      vsearch TaskOutcome.embedding (outcomeScope req.project req.include_general)
        (emb req.query) req.k_outcomes db.task_outcomes ∧
    (retrieve emb db req).1.summaries =
      vsearch WeeklySummary.embedding (fun _ => true) (emb req.query)
        req.k_summaries db.summaries :=
  ⟨rfl, rfl, rfl, rfl, rfl, rfl, rfl⟩

/-- C3: every per-type vector search statement — any instantiation of the
shared search model with an embedding column, a scope predicate, a query
vector and a budget — returns at most the budget many rows, ordered by
non-decreasing L2 distance to the query, and only rows carrying a non-null
embedding. -/
theorem vsearch_budget_ordering_candidates (α : Type) (emb : α → Option (List ℚ))
    (keep : α → Bool) (q : List ℚ) (k : Nat) (rows : List α) :
    (vsearch emb keep q k rows).length ≤ k ∧
    (vsearch emb keep q k rows).Pairwise
      (fun a b => l2dist q ((emb a).getD []) ≤ l2dist q ((emb b).getD [])) ∧
    ∀ r ∈ vsearch emb keep q k rows, (emb r).isSome :=
  ⟨vsearch_length_le emb keep q k rows,
   vsearch_sorted_l2 emb keep q k rows,
   fun r hr => (vsearch_mem_keep emb keep q k rows r hr).1⟩

theorem retrieve_messages_def (emb : String → List ℚ) (db : DB) (req : RetrieveRequest) :
    (retrieve emb db req).1.messages =
      vsearch Message.embedding (fun _ => true) (emb req.query) req.k_messages
        (messageCandidates db req.project req.include_general) := rfl

theorem retrieve_insights_def (emb : String → List ℚ) (db : DB) (req : RetrieveRequest) :
    (retrieve emb db req).1.insights =
      vsearch Insight.embedding (insightScope req.project req.include_general)
        (emb req.query) req.k_insights db.insights := rfl

theorem retrieve_outcomes_def (emb : String → List ℚ) (db : DB) (req : RetrieveRequest) :
    (retrieve emb db req).1.task_outcomes =
      vsearch TaskOutcome.embedding (outcomeScope req.project req.include_general)
        (emb req.query) req.k_outcomes db.task_outcomes := rfl

theorem search_insights_mem_scope (emb : String → List ℚ) (db : DB)
    (ireq : InsightSearch) (i : Insight) (hi : i ∈ search_insights emb db ireq) :
    insightScope ireq.project ireq.include_global i = true := by
  simp only [search_insights] at hi
  split at hi
  · have := (vsearch_mem_keep _ _ _ _ _ i hi).2
    rw [Bool.and_eq_true] at this
    exact this.1
  · have h1 := List.take_subset _ _ hi
    rw [mem_orderByAsc] at h1
    have := List.of_mem_filter h1
    rw [Bool.and_eq_true] at this
    exact this.1

theorem search_task_outcomes_mem_scope (emb : String → List ℚ) (db : DB)
    (treq : TaskOutcomeQuery) (t : TaskOutcome)
    (ht : t ∈ search_task_outcomes emb db treq) :
    outcomeProjectFilter treq.project t = true := by
  simp only [search_task_outcomes] at ht
  split at ht
  · have := (vsearch_mem_keep _ _ _ _ _ t ht).2
    rw [Bool.and_eq_true] at this
    exact this.1
  · have h1 := List.take_subset _ _ ht
    rw [mem_orderByAsc] at h1
    have := List.of_mem_filter h1
    rw [Bool.and_eq_true] at this
    exact this.1

/-- Concrete data exhibiting the empty-string project edge case. -/
def insForeign : Insight :=
  { type := "lesson", title := "t", content := "c", project := some "x",
    embedding := some [] }

def dbForeign : DB := { insights := [insForeign] }

def reqEmptyProject : RetrieveRequest :=
  { query := "q", project := some "", include_general := false }

/-- C2 is false as stated: a request that sets project to the empty string
with include_general=false still receives, from unified retrieval, an insight
belonging to a different project, because the source guards the insight and
task-outcome filters with Python truthiness (an empty-string project skips
the filter entirely). -/
theorem scope_filter_counterexample :
    reqEmptyProject.project = some "" ∧
    reqEmptyProject.include_general = false ∧
    insForeign ∈ (retrieve (fun _ => []) dbForeign reqEmptyProject).1.insights ∧
    insForeign.project ≠ some "" := by
  refine ⟨rfl, rfl, ?_, by decide⟩
  decide

/-- C2 (amended): the scope-filter containment holds with the project
required to be non-empty for the insight and task-outcome filters (the
message search applies its filter for any non-null project, via the
conversation join); when the project is unset — or, for insights and task
outcomes, equal to the empty string — no project filter is applied; the
standalone task-outcome search has no include-general option and filters by
plain project equality. -/
theorem scope_filter_amended (emb : String → List ℚ) (db : DB)
    (req : RetrieveRequest) (p : String) :
    (req.project = some p →
      ∀ m ∈ (retrieve emb db req).1.messages, ∃ c ∈ db.conversations,
        c.id = m.conversation_id ∧
          ((req.include_general = true → (c.project = some p ∨ c.project = none)) ∧
           (req.include_general = false → c.project = some p))) ∧
    (req.project = some p → p ≠ "" → req.include_general = true →
      ∀ i ∈ (retrieve emb db req).1.insights,
        i.project = some p ∨ i.project = none) ∧
    (req.project = some p → p ≠ "" → req.include_general = false →
      ∀ i ∈ (retrieve emb db req).1.insights, i.project = some p) ∧
    (req.project = some p → p ≠ "" → req.include_general = true →
      ∀ t ∈ (retrieve emb db req).1.task_outcomes,
        t.project = some p ∨ t.project = none) ∧
    (req.project = some p → p ≠ "" → req.include_general = false →
      ∀ t ∈ (retrieve emb db req).1.task_outcomes, t.project = some p) ∧
    (req.project = none →
      (retrieve emb db req).1.messages =
        vsearch Message.embedding (fun _ => true) (emb req.query)
          req.k_messages db.messages) ∧
    ((req.project = none ∨ req.project = some "") →
      (retrieve emb db req).1.insights =
        vsearch Insight.embedding (fun _ => true) (emb req.query)
          req.k_insights db.insights ∧
      (retrieve emb db req).1.task_outcomes =
        vsearch TaskOutcome.embedding (fun _ => true) (emb req.query)
          req.k_outcomes db.task_outcomes) ∧
    (∀ sreq : SearchRequest, sreq.project = some p →
      ∀ m ∈ search_messages emb db sreq, ∃ c ∈ db.conversations,
        c.id = m.conversation_id ∧
          ((sreq.include_general = true → (c.project = some p ∨ c.project = none)) ∧
           (sreq.include_general = false → c.project = some p))) ∧
    (∀ ireq : InsightSearch, ireq.project = some p → p ≠ "" →
      ∀ i ∈ search_insights emb db ireq,
        (ireq.include_global = true → (i.project = some p ∨ i.project = none)) ∧
        (ireq.include_global = false → i.project = some p)) ∧
    (∀ treq : TaskOutcomeQuery, treq.project = some p → p ≠ "" →
      ∀ t ∈ search_task_outcomes emb db treq, t.project = some p) := by
  refine ⟨?_, ?_, ?_, ?_, ?_, ?_, ?_, ?_, ?_, ?_⟩
  · intro hproj m hm
    rw [retrieve_messages_def] at hm
    have hrows := vsearch_mem_rows _ _ _ _ _ m hm
    rw [hproj] at hrows
    obtain ⟨c, hc, hid, hsm⟩ := joinedMessages_mem hrows
    exact ⟨c, hc, hid,
      fun hincl => scopeMatch_incl (hincl ▸ hsm),
      fun hincl => scopeMatch_excl (hincl ▸ hsm)⟩
  · intro hproj hp hincl i hi
    rw [retrieve_insights_def] at hi
    have hkeep := (vsearch_mem_keep _ _ _ _ _ i hi).2
    rw [hproj, hincl] at hkeep
    exact insightScope_incl hp hkeep
  · intro hproj hp hincl i hi
    rw [retrieve_insights_def] at hi
    have hkeep := (vsearch_mem_keep _ _ _ _ _ i hi).2
    rw [hproj, hincl] at hkeep
    exact insightScope_excl hp hkeep
  · intro hproj hp hincl t ht
    rw [retrieve_outcomes_def] at ht
    have hkeep := (vsearch_mem_keep _ _ _ _ _ t ht).2
    rw [hproj, hincl] at hkeep
    exact outcomeScope_incl hp hkeep
  · intro hproj hp hincl t ht
    rw [retrieve_outcomes_def] at ht
    have hkeep := (vsearch_mem_keep _ _ _ _ _ t ht).2
    rw [hproj, hincl] at hkeep
    exact outcomeScope_excl hp hkeep
  · intro hproj
    rw [retrieve_messages_def, hproj]
    rfl
  · intro hproj
    have hins : insightScope req.project req.include_general = fun _ => true := by
      funext i
      rcases hproj with h | h <;> simp [insightScope, pyTruthy, h]
    have hto : outcomeScope req.project req.include_general = fun _ => true := by
      funext t
      rcases hproj with h | h <;> simp [outcomeScope, pyTruthy, h]
    constructor
    · rw [retrieve_insights_def, hins]
    · rw [retrieve_outcomes_def, hto]
  · intro sreq hproj m hm
    unfold search_messages at hm
    have hrows := vsearch_mem_rows _ _ _ _ _ m hm
    rw [hproj] at hrows
    obtain ⟨c, hc, hid, hsm⟩ := joinedMessages_mem hrows
    exact ⟨c, hc, hid,
      fun hincl => scopeMatch_incl (hincl ▸ hsm),
      fun hincl => scopeMatch_excl (hincl ▸ hsm)⟩
  · intro ireq hproj hp i hi
    have hkeep := search_insights_mem_scope emb db ireq i hi
    rw [hproj] at hkeep
    exact ⟨fun hincl => insightScope_incl hp (hincl ▸ hkeep),
           fun hincl => insightScope_excl hp (hincl ▸ hkeep)⟩
  · intro treq hproj hp t ht
    have hkeep := search_task_outcomes_mem_scope emb db treq t ht
    rw [hproj] at hkeep
    exact outcomeProjectFilter_true hp hkeep

/-! Python string primitives, modelled over the character list of a string
so that they evaluate inside the kernel.  ASCII-faithful: Python's str.lower,
str.strip, str.split and substring containment agree with these on the
ASCII inputs the service manipulates. -/

/-- Python str.lower (per character). -/
def pyLower (s : String) : String :=
  String.mk (s.data.map Char.toLower)

/-- Python str.startswith. -/
def pyStartsWith (s pre : String) : Bool :=
  pre.data.isPrefixOf s.data

/-- Python str.strip with no argument: remove leading and trailing
whitespace. -/
def pyStrip (s : String) : String :=
  String.mk (((s.data.dropWhile Char.isWhitespace).reverse.dropWhile
    Char.isWhitespace).reverse)

/-- Characterwise split: Python str.split(sep) for a one-character sep. -/
def pySplitCharAux (c : Char) : List Char → List Char → List String
  | [], acc => [String.mk acc.reverse]
  | x :: xs, acc =>
    if x == c then String.mk acc.reverse :: pySplitCharAux c xs []
    else pySplitCharAux c xs (x :: acc)

def pySplitChar (c : Char) (s : String) : List String :=
  pySplitCharAux c s.data []

/-- Python str.split(sep, 1): at most one split, at the first separator. -/
def pySplitOnceCharAux (c : Char) : List Char → List Char → List String
  | [], acc => [String.mk acc.reverse]
  | x :: xs, acc =>
    if x == c then [String.mk acc.reverse, String.mk xs]
    else pySplitOnceCharAux c xs (x :: acc)

def pySplitOnceChar (c : Char) (s : String) : List String :=
  pySplitOnceCharAux c s.data []

/-- Substring containment (Python `sub in s`). -/
def containsSub : List Char → List Char → Bool
  | [], sub => sub.isEmpty
  | h :: t, sub => sub.isPrefixOf (h :: t) || containsSub t sub

def pyContains (s sub : String) : Bool :=
  containsSub s.data sub.data

/-- Python "\n".join, as used to assemble each chunk's text. -/
def joinNL : List String → String
  | [] => ""
  | [x] => x
  | x :: xs => x ++ "\n" ++ joinNL xs

/-! Chunking step of the global summarizer
(services/global_summaries.py, generate_global_summary): greedily pack
lines into chunks, flushing the buffer before it would overflow the
character budget; each line contributes its length plus one (for the
newline). -/

/-- Running buffer weight: the accumulated buf_len of the source, namely
the sum over buffered lines of length + 1. -/
def bufWeight (buf : List String) : Nat :=
  (buf.map (fun s => s.length + 1)).sum

/-- Loop body of the chunking step, with the buffer and its running length
as explicit accumulators; the final `if buf:` flush is the base case. -/
def chunkLoop (budget : Nat) : List String → List String → Nat → List (List String)
  | [], buf, _ => if buf.isEmpty then [] else [buf]
  | line :: rest, buf, buf_len =>
    let l := line.length + 1
    if !buf.isEmpty && decide (budget < buf_len + l) then
      buf :: chunkLoop budget rest [line] l
    else
      chunkLoop budget rest (buf ++ [line]) (buf_len + l)

/-- Chunking entry point: empty buffer, zero running length. -/
def chunkLines (budget : Nat) (lines : List String) : List (List String) :=
  chunkLoop budget lines [] 0

theorem chunkLoop_flatten (budget : Nat) :
    ∀ (rest : List String) (buf : List String) (n : Nat),
      (chunkLoop budget rest buf n).flatten = buf ++ rest := by
  intro rest
  induction rest with
  | nil =>
    intro buf n
    cases buf <;> simp [chunkLoop]
  | cons line rest ih =>
    intro buf n
    simp only [chunkLoop]
    split
    · simp [ih]
    · simp [ih]

theorem bufWeight_append (buf : List String) (line : String) :
    bufWeight (buf ++ [line]) = bufWeight buf + (line.length + 1) := by
  simp [bufWeight]

theorem chunkLoop_size (budget : Nat) :
    ∀ (rest : List String) (buf : List String) (n : Nat),
      n = bufWeight buf → (2 ≤ buf.length → n ≤ budget) →
      ∀ c ∈ chunkLoop budget rest buf n,
        c ≠ [] ∧ (2 ≤ c.length → bufWeight c ≤ budget) := by
  intro rest
  induction rest with
  | nil =>
    intro buf n hw hb c hc
    simp only [chunkLoop] at hc
    split at hc
    · simp at hc
    · rename_i hbuf
      rw [List.mem_singleton] at hc
      subst hc
      refine ⟨?_, fun h2 => hw ▸ hb h2⟩
      intro hnil
      rw [hnil] at hbuf
      simp at hbuf
  | cons line rest ih =>
    intro buf n hw hb c hc
    simp only [chunkLoop] at hc
    split at hc
    · rename_i hcond
      rw [Bool.and_eq_true, Bool.not_eq_true', decide_eq_true_eq] at hcond
      rcases List.mem_cons.mp hc with rfl | hc'
      · refine ⟨?_, fun h2 => hw ▸ hb h2⟩
        intro hnil
        have := hnil ▸ hcond.1
        simp at this
      · exact ih [line] (line.length + 1) (by simp [bufWeight])
          (by intro h; simp at h) c hc'
    · rename_i hcond
      rw [Bool.and_eq_true, Bool.not_eq_true', decide_eq_true_eq] at hcond
      refine ih (buf ++ [line]) (n + (line.length + 1))
        (by rw [hw, bufWeight_append]) ?_ c hc
      intro h2
      by_cases hbuf : buf.isEmpty = true
      · rw [List.isEmpty_iff] at hbuf
        subst hbuf
        simp at h2
      · have hbuf' : buf.isEmpty = false := Bool.eq_false_iff.mpr hbuf
        have : ¬ budget < n + (line.length + 1) := by
          intro hlt
          exact hcond ⟨hbuf', hlt⟩
        omega

theorem joinNL_length :
    ∀ c : List String, c ≠ [] → (joinNL c).length = bufWeight c - 1 := by
  intro c
  induction c with
  | nil => intro h; exact absurd rfl h
  | cons x xs ih =>
    intro _
    cases xs with
    | nil => simp [joinNL, bufWeight]
    | cons y ys =>
      have hne : y :: ys ≠ ([] : List String) := by simp
      have hpos : 1 ≤ bufWeight (y :: ys) := by
        simp only [bufWeight, List.map, List.sum_cons]
        omega
      show ((x ++ "\n" ++ joinNL (y :: ys)).length) = _
      rw [String.length_append, String.length_append, ih hne]
      have h1 : ("\n" : String).length = 1 := by decide
      rw [h1]
      simp only [bufWeight, List.map, List.sum_cons] at hpos ⊢
      omega

/-- C6: the chunking step of the global summarizer covers the input lines
exactly — flattening the chunks reproduces the original line sequence — and
no chunk's text (lines joined by newlines) exceeds the character budget
unless the chunk is a single line that alone exceeds it. -/
theorem chunking_coverage_and_budget (budget : Nat) (lines : List String) :
    (chunkLines budget lines).flatten = lines ∧
    ∀ c ∈ chunkLines budget lines,
      (joinNL c).length ≤ budget ∨ ∃ l, c = [l] ∧ budget < l.length := by
  constructor
  · simpa using chunkLoop_flatten budget lines [] 0
  · intro c hc
    have hprop := chunkLoop_size budget lines [] 0 (by simp [bufWeight])
      (by intro h; simp at h) c hc
    obtain ⟨hne, hsize⟩ := hprop
    match c, hne with
    | [l], _ =>
      by_cases hl : l.length ≤ budget
      · left
        simpa [joinNL] using hl
      · right
        exact ⟨l, rfl, by omega⟩
    | x :: y :: ys, _ =>
      left
      have h2 : 2 ≤ (x :: y :: ys).length := by simp
      have hw := hsize h2
      have hj := joinNL_length (x :: y :: ys) (by simp)
      omega

/-! Header-list parsing (services/global_summaries.py, _parse_header_list):
scan lines for a case-insensitive heading match, split the first matching
line at its first colon, split the remainder on commas, trim, drop empties.
The source indexes [1] into line.split(":", 1), which raises IndexError when
a matching line carries no colon; Except.error stands for that exception. -/

def parseHeaderLoop (header : String) :
    List String → Except Unit (Option (List String))
  | [] => .ok none
  | line :: rest =>
    if pyStartsWith (pyLower line) (pyLower header) then
      match pySplitOnceChar ':' line with
      | [] => .error ()
      | [_] => .error ()
      | _ :: after :: _ =>
        let r := pyStrip after
        if r == "" then .ok none
        else .ok (some (((pySplitChar ',' r).map pyStrip).filter (fun x => !(x == ""))))
    else parseHeaderLoop header rest

def _parse_header_list (text header : String) : Except Unit (Option (List String)) :=
  parseHeaderLoop header (pySplitChar '\n' text)

/-- C9 is false as stated: on a text whose only line starts with the heading
but contains no colon, the parser raises (IndexError on split(":", 1)[1])
instead of returning null or a list. -/
theorem parse_header_list_counterexample :
    _parse_header_list "Projects active" "Projects active" = Except.error () := rfl

theorem parseHeaderLoop_ok (header : String) :
    ∀ lines : List String,
    (∀ line ∈ lines, pyStartsWith (pyLower line) (pyLower header) = true →
      (pySplitOnceChar ':' line).length = 2) →
    (∃ v, parseHeaderLoop header lines = Except.ok v) ∧
    ((∀ line ∈ lines, pyStartsWith (pyLower line) (pyLower header) = false) →
      parseHeaderLoop header lines = Except.ok none) ∧
    (∀ xs, parseHeaderLoop header lines = Except.ok (some xs) →
      ∀ x ∈ xs, x ≠ "") := by
  intro lines
  induction lines with
  | nil =>
    intro _
    exact ⟨⟨none, rfl⟩, fun _ => rfl, by intro xs hxs; simp [parseHeaderLoop] at hxs⟩
  | cons line rest ih =>
    intro h
    by_cases hst : pyStartsWith (pyLower line) (pyLower header) = true
    · have hlen := h line (List.mem_cons_self line rest) hst
      have hrun : parseHeaderLoop header (line :: rest) =
          (match pySplitOnceChar ':' line with
           | [] => Except.error ()
           | [_] => Except.error ()
           | _ :: after :: _ =>
             let r := pyStrip after
             if r == "" then Except.ok none
             else Except.ok (some (((pySplitChar ',' r).map pyStrip).filter
               (fun x => !(x == ""))))) := by
        simp only [parseHeaderLoop, hst, if_true]
      cases hsplit : pySplitOnceChar ':' line with
      | nil => rw [hsplit] at hlen; simp at hlen
      | cons a t =>
        cases t with
        | nil => rw [hsplit] at hlen; simp at hlen
        | cons b t2 =>
          rw [hsplit] at hrun
          simp only at hrun
          by_cases hr : (pyStrip b == "") = true
          · rw [if_pos hr] at hrun
            refine ⟨⟨none, hrun⟩, fun _ => hrun, ?_⟩
            intro xs hxs
            rw [hrun] at hxs
            simp at hxs
          · rw [if_neg hr] at hrun
            refine ⟨⟨_, hrun⟩, ?_, ?_⟩
            · intro hall
              have := hall line (List.mem_cons_self line rest)
              rw [hst] at this
              exact absurd this (by simp)
            · intro xs hxs
              rw [hrun] at hxs
              have hxs' : ((pySplitChar ',' (pyStrip b)).map pyStrip).filter
                  (fun x => !(x == "")) = xs := by
                have := Except.ok.inj hxs
                exact Option.some.inj this
              intro x hx
              rw [← hxs'] at hx
              have := List.of_mem_filter hx
              simpa using this
    · have hrun : parseHeaderLoop header (line :: rest) = parseHeaderLoop header rest := by
        simp [parseHeaderLoop, hst]
      have ih' := ih (fun l hl hs => h l (List.mem_cons_of_mem line hl) hs)
      rw [hrun]
      refine ⟨ih'.1, ?_, ih'.2.2⟩
      intro hall
      exact ih'.2.1 (fun l hl => hall l (List.mem_cons_of_mem line hl))

/-- C9 (amended): provided every line that case-insensitively starts with
the heading contains a colon, the parser never raises: it returns some value;
it returns null when no line carries the heading; and any returned list holds
only non-empty (trimmed) tokens. -/
theorem parse_header_list_amended (text header : String)
    (h : ∀ line ∈ pySplitChar '\n' text,
      pyStartsWith (pyLower line) (pyLower header) = true →
      (pySplitOnceChar ':' line).length = 2) :
    (∃ v, _parse_header_list text header = Except.ok v) ∧
    ((∀ line ∈ pySplitChar '\n' text,
        pyStartsWith (pyLower line) (pyLower header) = false) →
      _parse_header_list text header = Except.ok none) ∧
    (∀ xs, _parse_header_list text header = Except.ok (some xs) →
      ∀ x ∈ xs, x ≠ "") :=
  parseHeaderLoop_ok header (pySplitChar '\n' text) h

/-- Witness for the amended header-parsing theorem, at a well-formed heading
line. -/
theorem parse_header_list_amended_witness :
    ∃ v, _parse_header_list "Projects active: a, b" "Projects active" = Except.ok v :=
  (parse_header_list_amended "Projects active: a, b" "Projects active"
    (by decide)).1

/-! Auto-extraction pipeline (services/auto_extract.py).  The LLM call and
the per-item embedding calls are fallible collaborators modelled as
Except-returning functions; an Except.error stands for a raised exception.
The source wraps ONLY json.loads in try/except, so collaborator errors
propagate through the monadic binds below exactly as the exceptions do. -/

/-- Python `a or b` on an optional string: None and "" are falsy. -/
def orElseStr (a : Option String) (b : String) : String :=
  match a with
  | none => b
  | some s => if s == "" then b else s

/-- Python f-string rendering of an optional value (None prints as "None"). -/
def fstrOpt : Option String → String
  | none => "None"
  | some s => s

/-- Python lst[-n:]. -/
def takeLast (n : Nat) (l : List α) : List α :=
  l.drop (l.length - n)

/-- Coercion applied to the extracted confidence:
float(item.get("confidence") or 1.0).  Both an absent/null field and the
number 0 are falsy in Python, so both produce 1. -/
def coerceConfidence : Option ℚ → ℚ
  | none => 1
  | some x => if x == 0 then 1 else x

structure ExtractInsightItem where
  type : Option String := none
  title : Option String := none
  content : Option String := none
  tags : List String := []
deriving Repr, DecidableEq

structure ExtractKnowledgeItem where
  category : Option String := none
  subject : Option String := none
  content : Option String := none
  confidence : Option ℚ := none
deriving Repr, DecidableEq

structure ExtractOutcomeItem where
  result : Option String := none
  task_description : Option String := none
  cause : Option String := none
  fix : Option String := none
  recommendation : Option String := none
  tags : List String := []
deriving Repr, DecidableEq

/-- Parsed shape of the collaborator's JSON output; _safe_list has already
replaced missing or non-list fields by []. -/
structure ExtractData where
  insights : List ExtractInsightItem := []
  knowledge : List ExtractKnowledgeItem := []
  task_outcomes : List ExtractOutcomeItem := []
deriving Repr, DecidableEq

structure ConversationInfo where
  id : Nat
  project : Option String := none
deriving Repr, DecidableEq

/-- A raw message dict as passed to the pipeline (fields via .get, so both
may be absent). -/
structure MsgDict where
  role : Option String := none
  content : Option String := none
deriving Repr, DecidableEq

structure ExtractResult where
  created : Nat
  error : Option String := none
  new_insights : List Insight := []
  new_knowledge : List KnowledgeEntry := []
  new_outcomes : List TaskOutcome := []
deriving Repr, DecidableEq

/-- Extraction prompt constant; its exact wording only feeds the
collaborator and is irrelevant to every claim, so the JSON-schema prose of
the source is abbreviated here. -/
def AUTO_EXTRACT_SYSTEM_PROMPT : String :=
  "Extract structured memory items from the conversation."

def buildInsightRows (embed1 : String → Except String (List ℚ))
    (conv : ConversationInfo) :
    List ExtractInsightItem → Except String (List Insight)
  | [] => .ok []
  | item :: rest =>
    let title := pyStrip (orElseStr item.title "")
    let content := pyStrip (orElseStr item.content "")
    if title == "" || content == "" then buildInsightRows embed1 conv rest
    else
      match embed1 (title ++ "\n" ++ content) with
      | .error e => .error e
      | .ok emb =>
        let tagsStr := String.intercalate "," item.tags
        match buildInsightRows embed1 conv rest with
        | .error e => .error e
        | .ok rest' =>
          .ok ({ type := orElseStr item.type "lesson",
                 project := conv.project,
                 title := title, content := content,
                 tags := if tagsStr == "" then none else some tagsStr,
                 source_conversation_id := some conv.id,
                 embedding := some emb } :: rest')

/-- Knowledge row built from one accepted item (subject/content already
stripped and non-empty). -/
def mkKnowledgeEntry (conv : ConversationInfo) (item : ExtractKnowledgeItem)
    (subject content : String) (emb : List ℚ) : KnowledgeEntry :=
  { category := orElseStr item.category "insight",
    subject := subject, content := content,
    confidence := coerceConfidence item.confidence,
    source_conversation_id := some conv.id,
    embedding := some emb }

def buildKnowledgeRows (embed1 : String → Except String (List ℚ))
    (conv : ConversationInfo) :
    List ExtractKnowledgeItem → Except String (List KnowledgeEntry)
  | [] => .ok []
  | item :: rest =>
    let subject := pyStrip (orElseStr item.subject "")
    let content := pyStrip (orElseStr item.content "")
    if subject == "" || content == "" then buildKnowledgeRows embed1 conv rest
    else
      match embed1 (subject ++ "\n" ++ content) with
      | .error e => .error e
      | .ok emb =>
        match buildKnowledgeRows embed1 conv rest with
        | .error e => .error e
        | .ok rest' => .ok (mkKnowledgeEntry conv item subject content emb :: rest')

def buildOutcomeRows (embed1 : String → Except String (List ℚ))
    (conv : ConversationInfo) :
    List ExtractOutcomeItem → Except String (List TaskOutcome)
  | [] => .ok []
  | item :: rest =>
    let task_description := pyStrip (orElseStr item.task_description "")
    if task_description == "" then buildOutcomeRows embed1 conv rest
    else
      match embed1 task_description with
      | .error e => .error e
      | .ok emb =>
        let tagsStr := String.intercalate "," item.tags
        match buildOutcomeRows embed1 conv rest with
        | .error e => .error e
        | .ok rest' =>
          .ok ({ project := conv.project,
                 result := orElseStr item.result "success",
                 task_description := task_description,
                 cause := item.cause, fix := item.fix,
                 recommendation := item.recommendation,
                 conversation_id := some conv.id,
                 tags := if tagsStr == "" then none else some tagsStr,
                 embedding := some emb } :: rest')

/-- Auto-extraction from one conversation.  Structure of the source: build
the transcript; empty transcript returns created 0 immediately; call the
LLM (NOT guarded — its failure propagates); json.loads is guarded and a
parse failure returns created 0 with the soft error tag; each accepted item
is embedded (NOT guarded) and persisted. -/
def auto_extract_from_conversation
    (llm : String → Except String String)
    (embed1 : String → Except String (List ℚ))
    (parse : String → Option ExtractData)
    (conversation : ConversationInfo) (messages : List MsgDict) :
    Except String ExtractResult :=
  let transcript_lines := messages.filterMap (fun m =>
    let content := pyStrip (orElseStr m.content "")
    if content == "" then none
    else some (fstrOpt m.role ++ ": " ++ content))
  if transcript_lines.isEmpty then .ok { created := 0 }
  else
    let prompt := AUTO_EXTRACT_SYSTEM_PROMPT ++ "\n\n" ++
      "Project: " ++ orElseStr conversation.project "general" ++ "\n" ++
      "Conversation ID: " ++ toString conversation.id ++ "\n\n" ++
      "Transcript:\n" ++ joinNL (takeLast 60 transcript_lines)
    match llm prompt with
    | .error e => .error e
    | .ok text =>
      match parse text with
      | none => .ok { created := 0, error := some "invalid_json" }
      | some data =>
        match buildInsightRows embed1 conversation (data.insights.take 5) with
        | .error e => .error e
        | .ok ins =>
          match buildKnowledgeRows embed1 conversation (data.knowledge.take 5) with
          | .error e => .error e
          | .ok kn =>
            match buildOutcomeRows embed1 conversation (data.task_outcomes.take 5) with
            | .error e => .error e
            | .ok outs =>
              .ok { created := ins.length + kn.length + outs.length,
                    new_insights := ins, new_knowledge := kn, new_outcomes := outs }

/-! Primary-path create endpoints (services/chat.py, knowledge.py,
insights.py, task_outcomes.py, repo_events.py).  Each calls the embedding
provider — modelled as a fallible batch function — with NO exception
handling, so a provider failure becomes the endpoint's result and nothing
is persisted.  Python's embeddings[0] on an empty batch result is the
IndexError branch. -/

structure MessageIn where
  role : String
  content : String
deriving Repr, DecidableEq

structure ConversationCreate where
  project : Option String := none
  title : Option String := none
  messages : List MessageIn
deriving Repr, DecidableEq

structure KnowledgeCreate where
  category : String
  subject : String
  content : String
  confidence : ℚ := 1
  source_conversation_id : Option Nat := none
deriving Repr, DecidableEq

structure InsightCreate where
  type : String
  project : Option String := none
  title : String
  content : String
  tags : Option String := none
  source_conversation_id : Option Nat := none
  source_task_id : Option Nat := none
deriving Repr, DecidableEq

structure TaskOutcomeCreate where
  project : Option String := none
  result : String
  task_description : String
  cause : Option String := none
  fix : Option String := none
  recommendation : Option String := none
  linked_commit : Option String := none
  conversation_id : Option Nat := none
  tags : Option String := none
deriving Repr, DecidableEq

structure RepoEventCreate where
  event_type : String
  repo : String
  project : Option String := none
  ref : Option String := none
  author : Option String := none
  title : String
  body : Option String := none
  diff_summary : Option String := none
  url : Option String := none
  event_at : String
deriving Repr, DecidableEq

def create_knowledge (embed : List String → Except String (List (List ℚ)))
    (db : DB) (req : KnowledgeCreate) : Except String (DB × KnowledgeEntry) :=
  match embed [req.subject ++ ": " ++ req.content] with
  | .error e => .error e
  | .ok [] => .error "IndexError"
  | .ok (e0 :: _) =>
    let entry : KnowledgeEntry :=
      { category := req.category, subject := req.subject, content := req.content,
        source_conversation_id := req.source_conversation_id,
        confidence := req.confidence, embedding := some e0 }
    .ok ({ db with knowledge := db.knowledge ++ [entry] }, entry)

/-- Conversation ingest (services/chat.py, create_conversation): flush the
conversation row, embed all message contents in one batch — unguarded — and
insert one message row per (message, embedding) pair (zip with strict=False
stops at the shorter sequence).  count_tokens is the tiktoken collaborator. -/
def create_conversation (embed : List String → Except String (List (List ℚ)))
    (tok : String → Nat) (db : DB) (payload : ConversationCreate) :
    Except String (DB × Conversation) :=
  let conv : Conversation :=
    { id := db.conversations.length, project := payload.project, title := payload.title }
  match embed (payload.messages.map (fun m => m.content)) with
  | .error e => .error e
  | .ok embeddings =>
    let msgs := (payload.messages.zip embeddings).map (fun p =>
      { conversation_id := conv.id, role := p.1.role, content := p.1.content,
        embedding := some p.2, token_count := some (tok p.1.content) : Message })
    .ok ({ db with
             conversations := db.conversations ++ [conv]
             messages := db.messages ++ msgs }, conv)

/-- Insight create.  The source stores tags_list (a Python list) into a
comma-separated text column; we store its comma-joined rendering — only the
unguarded embedding call matters to the claims. -/
def create_insight (embed : List String → Except String (List (List ℚ)))
    (db : DB) (req : InsightCreate) : Except String (DB × Insight) :=
  let tags_list := match req.tags with
    | some ts => if ts == "" then [] else (pySplitChar ',' ts).map pyStrip
    | none => []
  match embed [req.title ++ "\n" ++ req.content] with
  | .error e => .error e
  | .ok [] => .error "IndexError"
  | .ok (e0 :: _) =>
    let ins : Insight :=
      { type := req.type, title := req.title, content := req.content,
        project := req.project, tags := some (String.intercalate "," tags_list),
        source_conversation_id := req.source_conversation_id,
        source_task_id := req.source_task_id, embedding := some e0 }
    .ok ({ db with insights := db.insights ++ [ins] }, ins)

def create_task_outcome (embed : List String → Except String (List (List ℚ)))
    (db : DB) (req : TaskOutcomeCreate) : Except String (DB × TaskOutcome) :=
  let tags_list := match req.tags with
    | some ts => if ts == "" then [] else (pySplitChar ',' ts).map pyStrip
    | none => []
  let embed_text := req.task_description ++
    (match req.cause with | some c => "\nCause: " ++ c | none => "") ++
    (match req.fix with | some f => "\nFix: " ++ f | none => "") ++
    (match req.recommendation with | some r => "\nRecommendation: " ++ r | none => "")
  match embed [embed_text] with
  | .error e => .error e
  | .ok [] => .error "IndexError"
  | .ok (e0 :: _) =>
    let outcome : TaskOutcome :=
      { project := req.project, conversation_id := req.conversation_id,
        task_description := req.task_description, result := req.result,
        cause := req.cause, fix := req.fix, recommendation := req.recommendation,
        linked_commit := req.linked_commit,
        tags := some (String.intercalate "," tags_list), embedding := some e0 }
    .ok ({ db with task_outcomes := db.task_outcomes ++ [outcome] }, outcome)

def create_repo_event (embed : List String → Except String (List (List ℚ)))
    (db : DB) (req : RepoEventCreate) : Except String (DB × RepoEvent) :=
  match embed [req.title ++ "\n" ++ orElseStr req.body ""] with
  | .error e => .error e
  | .ok [] => .error "IndexError"
  | .ok (e0 :: _) =>
    let event : RepoEvent :=
      { event_type := req.event_type, repo := req.repo, project := req.project,
        ref := req.ref, title := req.title, body := req.body,
        diff_summary := req.diff_summary, author := req.author, url := req.url,
        event_at := req.event_at, embedding := some e0 }
    .ok ({ db with repo_events := db.repo_events ++ [event] }, event)

/-! GitHub webhook ingestion (services/repo_events.py, github_webhook). -/

structure CommitObj where
  message : Option String := none
  author_username : Option String := none
  author_name : Option String := none
  url : Option String := none
  timestamp : Option String := none
deriving Repr, DecidableEq

structure PullRequestObj where
  title : Option String := none
  body : Option String := none
  head_ref : Option String := none
  user_login : Option String := none
  html_url : Option String := none
  updated_at : Option String := none
  created_at : Option String := none
deriving Repr, DecidableEq

structure ReleaseObj where
  name : Option String := none
  tag_name : Option String := none
  body : Option String := none
  author_login : Option String := none
  html_url : Option String := none
  published_at : Option String := none
  created_at : Option String := none
deriving Repr, DecidableEq

/-- Raw webhook payload: the three recognized shapes are keyed by the
presence of commits / pull_request / release. -/
structure WebhookPayload where
  commits : Option (List CommitObj) := none
  pull_request : Option PullRequestObj := none
  release : Option ReleaseObj := none
  repository_full_name : Option String := none
  ref : Option String := none
deriving Repr, DecidableEq

/-- Python `a or b` on two optional strings (used for the commit author:
username or name). -/
def pyOrOpt (a b : Option String) : Option String :=
  if pyTruthy a then a else b

def mkCommitEvent (repo rf : String) (c : CommitObj) : RepoEvent :=
  let msg := c.message.getD ""
  { event_type := "commit", repo := repo, ref := some rf,
    title := (pySplitChar '\n' msg).headD "",
    body := some msg,
    author := pyOrOpt c.author_username c.author_name,
    url := some (c.url.getD ""),
    event_at := c.timestamp.getD "2000-01-01T00:00:00Z" }

def mkPREvent (repo : String) (pr : PullRequestObj) : RepoEvent :=
  { event_type := "pr", repo := repo, ref := some (pr.head_ref.getD ""),
    title := pr.title.getD "",
    body := some (orElseStr pr.body ""),
    author := some (pr.user_login.getD ""),
    url := some (pr.html_url.getD ""),
    event_at := if pyTruthy pr.updated_at then pr.updated_at.getD ""
      else pr.created_at.getD "2000-01-01T00:00:00Z" }

def mkReleaseEvent (repo : String) (rel : ReleaseObj) : RepoEvent :=
  { event_type := "release", repo := repo, ref := some (rel.tag_name.getD ""),
    title := orElseStr (some (rel.name.getD "")) (rel.tag_name.getD ""),
    body := some (orElseStr rel.body ""),
    author := some (rel.author_login.getD ""),
    url := some (rel.html_url.getD ""),
    event_at := if pyTruthy rel.published_at then rel.published_at.getD ""
      else rel.created_at.getD "2000-01-01T00:00:00Z" }

/-- Text embedded for one webhook event: the f-string title\n body built in
each branch from exactly the title and body stored on the event. -/
def webhookText (e : RepoEvent) : String :=
  e.title ++ "\n" ++ e.body.getD ""

/-- Webhook handler.  Recognizes the three payload shapes in order (elif
chain), batch-embeds all built events inside try/except — a failing provider
leaves every embedding null — then persists all events and reports the
ingested count; an unrecognized shape persists nothing and reports zero. -/
def github_webhook (embed : List String → Except String (List (List ℚ)))
    (db : DB) (payload : WebhookPayload) : DB × Nat :=
  let repo := payload.repository_full_name.getD ""
  let event_objects : List RepoEvent :=
    match payload.commits with
    | some cs => cs.map (mkCommitEvent repo (payload.ref.getD ""))
    | none =>
      match payload.pull_request with
      | some pr => [mkPREvent repo pr]
      | none =>
        match payload.release with
        | some rel => [mkReleaseEvent repo rel]
        | none => []
  if event_objects.isEmpty then (db, 0)
  else
    let withEmb :=
      match embed (event_objects.map webhookText) with
      | .ok embs =>
        (event_objects.zip embs).map (fun p => { p.1 with embedding := some p.2 }) ++
          event_objects.drop embs.length
      | .error _ => event_objects
    ({ db with repo_events := db.repo_events ++ withEmb }, withEmb.length)

/-- A failing embedding provider (network/auth error). -/
def failEmbed (e : String) : List String → Except String (List (List ℚ)) :=
  fun _ => .error e

theorem map_zip_eq_zipWith (f : α × β → γ) :
    ∀ (as : List α) (bs : List β),
      (as.zip bs).map f = List.zipWith (fun a b => f (a, b)) as bs := by
  intro as
  induction as with
  | nil => intro bs; simp
  | cons a as ih =>
    intro bs
    cases bs with
    | nil => simp
    | cons b bs => simp [ih]

theorem withEmb_length (events : List RepoEvent) (embs : List (List ℚ))
    (f : RepoEvent × List ℚ → RepoEvent) :
    ((events.zip embs).map f ++ events.drop embs.length).length = events.length := by
  simp [List.length_zip]
  omega

/-- C5 is false as stated: a knowledge create whose embedding call fails
returns the provider error — the write fails and nothing is persisted with a
null embedding. -/
theorem embedding_failure_fails_create :
    create_knowledge (failEmbed "provider down") {}
      { category := "preference", subject := "s", content := "c" } =
      Except.error "provider down" := rfl

/-- C5 (amended): only webhook repo-event ingestion survives an embedding
failure — it persists every built event with a null embedding and reports the
full ingested count; each of the other primary-path writes (conversation /
message ingest, knowledge create, insight create, task-outcome create,
direct repo-event create) calls the provider unguarded, so the failure
propagates and the write fails. -/
theorem embedding_failure_amended (e : String) (db : DB) :
    (∀ req : KnowledgeCreate, create_knowledge (failEmbed e) db req = Except.error e) ∧
    (∀ (tok : String → Nat) (payload : ConversationCreate),
      create_conversation (failEmbed e) tok db payload = Except.error e) ∧
    (∀ req : InsightCreate, create_insight (failEmbed e) db req = Except.error e) ∧
    (∀ req : TaskOutcomeCreate, create_task_outcome (failEmbed e) db req = Except.error e) ∧
    (∀ req : RepoEventCreate, create_repo_event (failEmbed e) db req = Except.error e) ∧
    (∀ (payload : WebhookPayload) (cs : List CommitObj), payload.commits = some cs →
      (github_webhook (failEmbed e) db payload).2 = cs.length ∧
      (github_webhook (failEmbed e) db payload).1.repo_events =
        db.repo_events ++ cs.map (mkCommitEvent (payload.repository_full_name.getD "")
          (payload.ref.getD "")) ∧
      ∀ ev ∈ cs.map (mkCommitEvent (payload.repository_full_name.getD "")
          (payload.ref.getD "")), ev.embedding = none) := by
  refine ⟨fun req => rfl, fun tok payload => rfl, fun req => rfl, fun req => rfl,
    fun req => rfl, ?_⟩
  intro payload cs hc
  cases cs with
  | nil =>
    have h0 : github_webhook (failEmbed e) db payload = (db, 0) := by
      simp [github_webhook, hc]
    rw [h0]
    exact ⟨rfl, by simp, by simp⟩
  | cons c cs' =>
    have h1 : github_webhook (failEmbed e) db payload =
        ({ db with repo_events := db.repo_events ++
             (c :: cs').map (mkCommitEvent (payload.repository_full_name.getD "")
               (payload.ref.getD "")) },
         ((c :: cs').map (mkCommitEvent (payload.repository_full_name.getD "")
           (payload.ref.getD ""))).length) := by
      simp [github_webhook, hc, failEmbed]
    rw [h1]
    refine ⟨by simp, rfl, ?_⟩
    intro ev hev
    rw [List.mem_map] at hev
    obtain ⟨c', _, rfl⟩ := hev
    rfl

/-- Concrete one-commit payload for the witness. -/
def payloadOneCommit : WebhookPayload :=
  { commits := some [{ message := some "fix: a bug" }],
    repository_full_name := some "o/r" }

/-- Witness for the amended embedding-failure theorem: the webhook still
ingests the commit when the provider fails. -/
theorem embedding_failure_amended_witness :
    (github_webhook (failEmbed "boom") {} payloadOneCommit).2 = 1 := by
  have h := (embedding_failure_amended "boom" {}).2.2.2.2.2
    payloadOneCommit [{ message := some "fix: a bug" }] rfl
  simpa using h.1

/-- C8: a push-style payload with n commits creates exactly n repo events,
all of event_type "commit", the response reports n ingested, and — when the
batch embedding call succeeds with one vector per text — the i-th stored
event carries the embedding of its own commit's title\n message text; a
payload matching none of the three recognized shapes stores nothing and
reports zero ingested without error. -/
theorem github_webhook_push_and_unrecognized
    (embed : List String → Except String (List (List ℚ))) (db : DB)
    (payload : WebhookPayload) :
    (∀ cs, payload.commits = some cs →
      (github_webhook embed db payload).2 = cs.length ∧
      (∀ ev ∈ (github_webhook embed db payload).1.repo_events.drop
          db.repo_events.length, ev.event_type = "commit") ∧
      (∀ embs, embed ((cs.map (mkCommitEvent (payload.repository_full_name.getD "")
            (payload.ref.getD ""))).map webhookText) = Except.ok embs →
        embs.length = cs.length →
        (github_webhook embed db payload).1.repo_events =
          db.repo_events ++ List.zipWith (fun c v =>
            { mkCommitEvent (payload.repository_full_name.getD "")
                (payload.ref.getD "") c with embedding := some v }) cs embs)) ∧
    (payload.commits = none → payload.pull_request = none → payload.release = none →
      github_webhook embed db payload = (db, 0)) := by
  constructor
  · intro cs hc
    cases cs with
    | nil =>
      have h0 : github_webhook embed db payload = (db, 0) := by
        simp [github_webhook, hc]
      rw [h0]
      exact ⟨rfl, by simp, by intro embs _ _; simp⟩
    | cons c cs' =>
      set repo := payload.repository_full_name.getD "" with hrepo
      set rf := payload.ref.getD "" with hrf
      set events := (c :: cs').map (mkCommitEvent repo rf) with hevents
      have hne : events.isEmpty = false := by simp [hevents]
      cases hembed : embed (events.map webhookText) with
      | error err =>
        have h1 : github_webhook embed db payload =
            ({ db with repo_events := db.repo_events ++ events }, events.length) := by
          simp [github_webhook, hc, ← hrepo, ← hrf, ← hevents, hne, hembed]
        rw [h1]
        refine ⟨by rw [hevents]; exact List.length_map _ _, ?_, ?_⟩
        · intro ev hev
          simp only [List.drop_left] at hev
          rw [hevents, List.mem_map] at hev
          obtain ⟨c', _, rfl⟩ := hev
          rfl
        · intro embs hok _
          exact absurd hok (by simp)
      | ok embs =>
        have h1 : github_webhook embed db payload =
            ({ db with repo_events := db.repo_events ++
                ((events.zip embs).map
                    (fun p : RepoEvent × List ℚ => { p.1 with embedding := some p.2 }) ++
                  events.drop embs.length) },
             ((events.zip embs).map
                 (fun p : RepoEvent × List ℚ => { p.1 with embedding := some p.2 }) ++
               events.drop embs.length).length) := by
          simp [github_webhook, hc, ← hrepo, ← hrf, ← hevents, hne, hembed]
        rw [h1]
        refine ⟨?_, ?_, ?_⟩
        · rw [withEmb_length, hevents]
          exact List.length_map _ _
        · intro ev hev
          simp only [List.drop_left] at hev
          rcases List.mem_append.mp hev with hev' | hev'
          · rw [List.mem_map] at hev'
            obtain ⟨p, hp, rfl⟩ := hev'
            have hp1 := List.of_mem_zip hp
            have hmem : p.1 ∈ events := hp1.1
            rw [hevents, List.mem_map] at hmem
            obtain ⟨c', _, hc'⟩ := hmem
            show ({ p.1 with embedding := some p.2 } : RepoEvent).event_type = "commit"
            rw [← hc']
            rfl
          · have hmem : ev ∈ events := List.mem_of_mem_drop hev'
            rw [hevents, List.mem_map] at hmem
            obtain ⟨c', _, hc'⟩ := hmem
            rw [← hc']
            rfl
        · intro embs' hok hlen
          have hembs : embs = embs' := Except.ok.inj hok
          subst hembs
          have hdrop : events.drop embs.length = [] := by
            have hl : embs.length = events.length := by
              rw [hevents]
              simpa using hlen
            rw [hl, List.drop_length]
          rw [hdrop, List.append_nil]
          rw [hevents, map_zip_eq_zipWith, List.zipWith_map_left]
  · intro h1 h2 h3
    simp [github_webhook, h1, h2, h3]

/-- Concrete three-commit payload and a provider answering one vector per
text, for the webhook witness. -/
def payloadThreeCommits : WebhookPayload :=
  { commits := some [{ message := some "a" }, { message := some "b" },
      { message := some "c" }],
    repository_full_name := some "o/r" }

/-- Witness for the webhook theorem: three commits, three ingested. -/
theorem github_webhook_push_witness :
    (github_webhook (fun ts => Except.ok (ts.map (fun _ => ([] : List ℚ))))
      {} payloadThreeCommits).2 = 3 := by
  have h := (github_webhook_push_and_unrecognized
    (fun ts => Except.ok (ts.map (fun _ => ([] : List ℚ)))) {} payloadThreeCommits).1
    [{ message := some "a" }, { message := some "b" }, { message := some "c" }] rfl
  simpa using h.1

/-- The LLM helper with no configured key (services/llm.py raises before any
network call). -/
def llmNoKey : String → Except String String :=
  fun _ => .error "OPENAI_API_KEY is required for LLM summarization"

/-- C4 fails on the code: with a non-empty transcript and an LLM
collaborator that fails (e.g. no OPENAI_API_KEY configured, which
llm_summarize turns into a RuntimeError), the failure escapes
auto_extract_from_conversation instead of being converted to a zero-created
result — the source guards only json.loads, contradicting both the spec and
the module's own docstring ("failures should never break ingestion"). -/
theorem auto_extract_llm_failure_escapes :
    auto_extract_from_conversation llmNoKey (fun _ => Except.ok []) (fun _ => none)
        { id := 1 } [{ role := some "user", content := some "hi" }] =
      Except.error "OPENAI_API_KEY is required for LLM summarization" ∧
    auto_extract_from_conversation llmNoKey (fun _ => Except.ok []) (fun _ => none)
        { id := 1 } [] = Except.ok { created := 0 } := by
  constructor
  · rfl
  · rfl

/-- C10: any falsy extracted confidence — the field absent or null, or the
in-range value 0 — is stored as the default 1.0 on the persisted knowledge
row; in particular an extracted confidence of exactly 0 can never be stored.
Every knowledge row the pipeline persists carries the coerced confidence of
its source item. -/
theorem auto_extract_confidence_zero_becomes_one
    (conv : ConversationInfo) (item : ExtractKnowledgeItem)
    (subject content : String) (emb : List ℚ)
    (h : item.confidence = none ∨ item.confidence = some 0) :
    (mkKnowledgeEntry conv item subject content emb).confidence = 1 ∧
    ∀ (embed1 : String → Except String (List ℚ))
      (items : List ExtractKnowledgeItem) (rows : List KnowledgeEntry),
      buildKnowledgeRows embed1 conv items = Except.ok rows →
      ∀ kn ∈ rows, ∃ it ∈ items, kn.confidence = coerceConfidence it.confidence := by
  constructor
  · rcases h with h | h <;> simp [mkKnowledgeEntry, coerceConfidence, h]
  · intro embed1 items
    induction items with
    | nil =>
      intro rows hrows kn hkn
      simp [buildKnowledgeRows] at hrows
      subst hrows
      simp at hkn
    | cons it rest ih =>
      intro rows hrows kn hkn
      simp only [buildKnowledgeRows] at hrows
      split at hrows
      · obtain ⟨it', hit', heq⟩ := ih rows hrows kn hkn
        exact ⟨it', List.mem_cons_of_mem it hit', heq⟩
      · split at hrows
        · exact absurd hrows (by simp)
        · rename_i emb hemb
          split at hrows
          · exact absurd hrows (by simp)
          · rename_i rows' hrest
            have hrows' : mkKnowledgeEntry conv it (pyStrip (orElseStr it.subject ""))
                (pyStrip (orElseStr it.content "")) emb :: rows' = rows :=
              Except.ok.inj hrows
            rw [← hrows'] at hkn
            rcases List.mem_cons.mp hkn with heq | hkn'
            · exact ⟨it, List.mem_cons_self it rest, by rw [heq]; rfl⟩
            · obtain ⟨it', hit', heq⟩ := ih rows' hrest kn hkn'
              exact ⟨it', List.mem_cons_of_mem it hit', heq⟩

/-- Witness for the confidence-coercion theorem at an item whose extracted
confidence is exactly 0. -/
theorem auto_extract_confidence_zero_witness :
    (mkKnowledgeEntry { id := 1 }
      { subject := some "s", content := some "c", confidence := some 0 }
      "s" "c" []).confidence = 1 :=
  (auto_extract_confidence_zero_becomes_one { id := 1 }
    { subject := some "s", content := some "c", confidence := some 0 }
    "s" "c" [] (Or.inr rfl)).1

/-! Fallback embedding (services/embeddings.py, embed_texts with no provider
key).  The Python hash of a string is fixed within one process configuration;
we model the composition abs(hash(.)) as an arbitrary function hash : String
→ Nat fixed per process, and the per-call generator
np.random.default_rng(seed).normal(size=dim) as an arbitrary function gen of
seed and dim — constructed afresh at every call, exactly as the source
builds a new rng per text, so no call can observe another call's state.
Normalization divides by the L2 norm plus 1e-8, performed here in exact real
arithmetic. -/

def _dim_for_model (model : String) : Nat :=
  if pyContains model "large" then 3072 else 1536

/-- The raw (pre-normalization) pseudo-embedding of one text. -/
def embed_fallback_one (gen : Nat → Nat → List ℚ) (hash : String → Nat)
    (model : String) (t : String) : List ℚ :=
  gen (hash t % 2 ^ 32) (_dim_for_model model)

/-- Division of each component by (norm + 1e-8), the source's
v /= np.linalg.norm(v) + 1e-8. -/
noncomputable def normalizeVec (v : List ℚ) : List ℝ :=
  v.map (fun x : ℚ => (x : ℝ) / (Real.sqrt ((normSq v : ℚ) : ℝ) + 1e-8))

/-- Batch fallback: one normalized vector per input text, in order. -/
noncomputable def embed_texts_fallback (gen : Nat → Nat → List ℚ)
    (hash : String → Nat) (model : String) (ts : List String) : List (List ℝ) :=
  ts.map (fun t => normalizeVec (embed_fallback_one gen hash model t))

/-- Squared L2 norm of a real vector. -/
def normSqR (v : List ℝ) : ℝ :=
  (v.map (fun x => x * x)).sum

theorem normSqR_map_div (c : ℝ) :
    ∀ v : List ℚ, normSqR (v.map (fun x : ℚ => (x : ℝ) / c)) =
      ((normSq v : ℚ) : ℝ) / c ^ 2 := by
  intro v
  induction v with
  | nil => simp [normSqR, normSq]
  | cons x xs ih =>
    have hcons : normSqR ((x :: xs).map (fun x : ℚ => (x : ℝ) / c)) =
        ((x : ℝ) / c) * ((x : ℝ) / c) + normSqR (xs.map (fun x : ℚ => (x : ℝ) / c)) := by
      simp [normSqR]
    have hq : ((normSq (x :: xs) : ℚ) : ℝ) =
        (x : ℝ) * (x : ℝ) + ((normSq xs : ℚ) : ℝ) := by
      have : normSq (x :: xs) = x * x + normSq xs := by simp [normSq]
      rw [this]
      push_cast
      ring
    rw [hcons, ih, hq, add_div]
    congr 1
    rw [div_mul_div_comm, pow_two]

theorem normSq_replicate_one : ∀ n : Nat, normSq (List.replicate n 1) = n := by
  intro n
  induction n with
  | zero => simp [normSq]
  | succ k ih =>
    rw [List.replicate_succ]
    have : normSq (1 :: List.replicate k 1) = 1 * 1 + normSq (List.replicate k 1) := by
      simp [normSq]
    rw [this, ih]
    push_cast
    ring

/-- C7: the fallback embedding is a pure function of the text (no shared
generator state: each batch element is the fixed per-text vector, so repeated
calls within one process configuration return identical vectors and never
throw, including on the empty string); its dimension is the model's fixed
dimension — 1536 for the small model, 3072 for the large; and the normalized
vector's squared L2 norm lies in [1/(1+1e-8)^2, 1] whenever the raw sample
has norm at least 1, hence the L2 norm is approximately 1. -/
theorem fallback_embedding_deterministic_normalized
    (gen : Nat → Nat → List ℚ) (hash : String → Nat) (model : String)
    (hlen : ∀ s d, (gen s d).length = d) :
    (∀ ts : List String, embed_texts_fallback gen hash model ts =
      ts.map (fun t => normalizeVec (embed_fallback_one gen hash model t))) ∧
    (∀ t : String, (normalizeVec (embed_fallback_one gen hash model t)).length =
      _dim_for_model model) ∧
    _dim_for_model "text-embedding-3-small" = 1536 ∧
    _dim_for_model "text-embedding-3-large" = 3072 ∧
    (∀ t : String, normSqR (normalizeVec (embed_fallback_one gen hash model t)) ≤ 1) ∧
    (∀ t : String, 1 ≤ normSq (embed_fallback_one gen hash model t) →
      1 / (1 + 1e-8) ^ 2 ≤
        normSqR (normalizeVec (embed_fallback_one gen hash model t))) := by
  have heps : (0 : ℝ) < 1e-8 := by norm_num
  refine ⟨fun ts => rfl, ?_, by decide, by decide, ?_, ?_⟩
  · intro t
    simp only [normalizeVec, List.length_map]
    exact hlen _ _
  · intro t
    set v := embed_fallback_one gen hash model t with hv
    have hS : (0 : ℝ) ≤ ((normSq v : ℚ) : ℝ) := by exact_mod_cast normSq_nonneg v
    set N := Real.sqrt ((normSq v : ℚ) : ℝ) with hN
    have hN0 : 0 ≤ N := Real.sqrt_nonneg _
    have hNsq : N ^ 2 = ((normSq v : ℚ) : ℝ) := Real.sq_sqrt hS
    have hc : (0 : ℝ) < N + 1e-8 := by linarith
    have hnorm : normSqR (normalizeVec v) = ((normSq v : ℚ) : ℝ) / (N + 1e-8) ^ 2 := by
      unfold normalizeVec
      rw [normSqR_map_div]
    rw [hnorm]
    rw [div_le_one (by positivity)]
    nlinarith [hN0, hNsq, heps]
  · intro t h1
    set v := embed_fallback_one gen hash model t with hv
    have h1' : (1 : ℝ) ≤ ((normSq v : ℚ) : ℝ) := by exact_mod_cast h1
    have hS : (0 : ℝ) ≤ ((normSq v : ℚ) : ℝ) := by linarith
    set N := Real.sqrt ((normSq v : ℚ) : ℝ) with hN
    have hN0 : 0 ≤ N := Real.sqrt_nonneg _
    have hNsq : N ^ 2 = ((normSq v : ℚ) : ℝ) := Real.sq_sqrt hS
    have hN1 : 1 ≤ N := by nlinarith
    have hc : (0 : ℝ) < N + 1e-8 := by linarith
    have hnorm : normSqR (normalizeVec v) = ((normSq v : ℚ) : ℝ) / (N + 1e-8) ^ 2 := by
      unfold normalizeVec
      rw [normSqR_map_div]
    rw [hnorm, ← hNsq]
    rw [div_le_div_iff₀ (by positivity) (by positivity)]
    nlinarith [hN1, heps]

/-- Witness for the fallback-embedding theorem, at the constant-one
generator, the zero hash, the small model and the empty string. -/
theorem fallback_embedding_witness :
    (1 : ℚ) ≤ normSq (embed_fallback_one (fun _ d => List.replicate d 1)
      (fun _ => 0) "text-embedding-3-small" "") ∧
    (normalizeVec (embed_fallback_one (fun _ d => List.replicate d 1)
      (fun _ => 0) "text-embedding-3-small" "")).length = 1536 ∧
    1 / (1 + 1e-8) ^ 2 ≤ normSqR (normalizeVec (embed_fallback_one
      (fun _ d => List.replicate d 1) (fun _ => 0) "text-embedding-3-small" "")) := by
  have hthm := fallback_embedding_deterministic_normalized
    (fun _ d => List.replicate d 1) (fun _ => 0) "text-embedding-3-small"
    (fun s d => List.length_replicate d 1)
  have hdim : _dim_for_model "text-embedding-3-small" = 1536 := by decide
  have hone : embed_fallback_one (fun _ d => List.replicate d 1) (fun _ => 0)
      "text-embedding-3-small" "" = List.replicate 1536 1 := by
    unfold embed_fallback_one
    simp [hdim]
  have h1 : (1 : ℚ) ≤ normSq (embed_fallback_one (fun _ d => List.replicate d 1)
      (fun _ => 0) "text-embedding-3-small" "") := by
    rw [hone, normSq_replicate_one]
    norm_num
  refine ⟨h1, ?_, hthm.2.2.2.2.2 "" h1⟩
  rw [hthm.2.1 "", hdim]

/-- Concrete data for the scope-filter witness. -/
def insGeneral : Insight :=
  { type := "lesson", title := "t", content := "c", project := none,
    embedding := some [] }

def dbScoped : DB := { insights := [insGeneral] }

def reqScoped : RetrieveRequest :=
  { query := "q", project := some "p", include_general := true }

/-- Witness for the amended scope-filter theorem at a concrete store and
request with a non-empty project. -/
theorem scope_filter_amended_witness :
    insGeneral.project = some "p" ∨ insGeneral.project = none :=
  (scope_filter_amended (fun _ => []) dbScoped reqScoped "p").2.1
    rfl (by decide) rfl insGeneral (by decide)
